/-
Verification development for the MIDAS verification & repair orchestration core
(src/pipeline/verification/).  The Python modules `parser.py`, `executor.py`,
`verification.py` and `verification_orchestrator.py` are shallowly embedded as
executable Lean definitions; theorems below settle the claims of the
specification against this embedding.

Modelling conventions:
  * JSON values produced by `json.loads` are the inductive type `Json`.
  * One line of captured stdout (after `strip`) is a `Line`: blank, a line that
    `json.loads` accepts (carrying its `Json` value), or a line that fails to
    parse as JSON (carrying its text).  The Python string-level machinery
    (`strip`, `splitlines`, `json.loads`) belongs to the host library and is
    abstracted at this line granularity.
  * Python exceptions raised while interpreting a line (TypeError from `in` on
    a non-container, AttributeError from `.get` on a non-dict, pydantic
    ValidationError from `StepVerification(...)`) are the type `PyErr`;
    `json.JSONDecodeError` is `PyErr.jsonDecodeError`.
  * Host floats are modelled as rationals (ℚ); wall-clock durations are not
    modelled.
-/
import Mathlib

/-- A JSON value as produced by Python's `json.loads`.  Python dicts returned
by `json.loads` have unique keys, so `obj` association lists are looked up by
first match. JSON numbers that are integers map to `num`; non-integral JSON
numbers map to `flt` (their exact value is irrelevant to the contract, only
that `isinstance(x, int)` fails for them, so `flt` carries no payload). -/
inductive Json where
  | null
  | bool (b : Bool)
  | num (n : Int)
  | flt
  | str (s : String)
  | arr (elems : List Json)
  | obj (fields : List (String × Json))

/-- A Python exception raised while interpreting a stdout line, as caught by
the `except` clauses of `VerificationOutputParser.parse`. -/
inductive PyErr where
  | jsonDecodeError (content : String)
  | typeError (msg : String)
  | attributeError (msg : String)
  | validationError (msg : String)
deriving DecidableEq, Repr

namespace Json

/-- Python truthiness of a JSON-derived value (`bool(x)`). -/
def truthy : Json → Bool
  | .null => false
  | .bool b => b
  | .num n => n != 0
  | .flt => true
  | .str s => s != ""
  | .arr xs => !xs.isEmpty
  | .obj fs => !fs.isEmpty

/-- Dict lookup by key, first match (keys of a `json.loads` dict are unique). -/
def objGet? : Json → String → Option Json
  | .obj fs, k => (fs.find? (fun p => p.1 == k)).map Prod.snd
  | _, _ => none

/-- Python `==` between a list element and the string key `k`: a JSON-derived
value equals a Python string only when it is that same string. -/
def eqStrKey (k : String) : Json → Bool
  | .str s => s == k
  | _ => false

/-- Python's `k in data` for a string key `k`: key test on dicts, membership
on lists, substring test on strings; raises TypeError on non-containers. -/
def memKey : Json → String → Except PyErr Bool
  | .obj fs, k => .ok (fs.any (fun p => p.1 == k))
  | .arr xs, k => .ok (xs.any (eqStrKey k))
  | .str s, k => .ok (Nat.blt 1 (s.splitOn k).length)
  | _, _ => .error (.typeError "argument of type is not iterable")

/-- Python's `data[k]` for a string key: dict item access; TypeError on
strings/lists indexed by a string, and on non-containers. -/
def getItem : Json → String → Except PyErr Json
  | .obj fs, k =>
      match (fs.find? (fun p => p.1 == k)).map Prod.snd with
      | some v => .ok v
      | none => .error (.typeError "KeyError")
  | _, _ => .error (.typeError "indices must be integers")

/-- Python's `data.get(k, default)`: a dict method; AttributeError on
anything that is not a dict. -/
def dictGet (j : Json) (k : String) (dflt : Json) : Except PyErr Json :=
  match j with
  | .obj fs => .ok (((fs.find? (fun p => p.1 == k)).map Prod.snd).getD dflt)
  | _ => .error (.attributeError "object has no attribute get")

/-- Python's `isinstance(x, int)` on a JSON-derived value.  `bool` is a
subclass of `int` in Python, so JSON booleans pass this test. -/
def isInstInt : Json → Bool
  | .num _ => true
  | .bool _ => true
  | _ => false

/-- Python's `isinstance(x, bool)` on a JSON-derived value. -/
def isInstBool : Json → Bool
  | .bool _ => true
  | _ => false

end Json

/-- `StepVerification` (verification_types.py): one per step record found in
stdout. -/
structure StepVerification where
  step_number : Int
  description : String
  verified : Bool
deriving DecidableEq, Repr

/-- One line of captured stdout after `line.strip()`: blank, parsed by
`json.loads` to a value, or rejected by `json.loads`. -/
inductive Line where
  | blank
  | json (j : Json)
  | malformed (content : String)

/-- `CodeExecutionResult` (verification_types.py).  `stdout` is carried at
line granularity (see the header comment); the wall-clock `execution_time`
field is not modelled. -/
structure CodeExecutionResult where
  success : Bool
  stdoutLines : List Line
  stderr : String
  exception_type : Option String := none
  exception_message : Option String := none
  exception_traceback : Option String := none

namespace VerificationOutputParser

open Json

/-- The loop body of `VerificationOutputParser.parse` for one line that
`json.loads` accepted, threading the accumulated steps and verdict.
Mirrors parser.py lines 36-48:
  * `if "step" in data and "verified" in data:` (short-circuit `and`), then
    `if not isinstance(data["step"], int) or not isinstance(data["verified"],
    bool): continue`, else construct a `StepVerification` — pydantic v2
    rejects a boolean for the `int` field `step_number` and a non-string for
    `description`, raising ValidationError;
  * `elif "final_answer_verified" in data:` keep the dict as the verdict when
    `isinstance(data.get("final_answer_verified"), bool)`.
Exceptions propagate to the `except` clauses of `parse`; raising is the
`.error` short-circuit, written as explicit matches. -/
def processLine (j : Json) (steps : List StepVerification) (verdict : Option Json) :
    Except PyErr (List StepVerification × Option Json) :=
  match memKey j "step" with
  | .error e => .error e
  | .ok hasStep =>
    match (if hasStep then memKey j "verified" else .ok false) with
    | .error e => .error e
    | .ok hasVer =>
      if hasStep && hasVer then
        match getItem j "step" with
        | .error e => .error e
        | .ok sv =>
          if ! isInstInt sv then .ok (steps, verdict)
          else
            match getItem j "verified" with
            | .error e => .error e
            | .ok vv =>
              if ! isInstBool vv then .ok (steps, verdict)
              else
                match sv, vv with
                | .num n, .bool b =>
                    match dictGet j "description" (.str "") with
                    | .error e => .error e
                    | .ok dv =>
                        match dv with
                        | .str d => .ok (steps ++ [⟨n, d, b⟩], verdict)
                        | _ => .error
                            (.validationError "description: input should be a valid string")
                | _, _ => .error
                    (.validationError "step_number: input should be a valid integer")
      else
        match memKey j "final_answer_verified" with
        | .error e => .error e
        | .ok hasFav =>
          if hasFav then
            match dictGet j "final_answer_verified" .null with
            | .error e => .error e
            | .ok fv =>
                if isInstBool fv then .ok (steps, some j) else .ok (steps, verdict)
          else .ok (steps, verdict)

/-- The `for line in lines` loop of `parse`, with the two `except` clauses:
the first line that fails `json.loads` or whose interpretation raises stops
the loop, and the partial `(steps, verdict)` accumulated so far are returned
together with the exception. -/
def parseLines : List Line → List StepVerification → Option Json →
    List StepVerification × Option Json × Option PyErr
  | [], steps, verdict => (steps, verdict, none)
  | .blank :: rest, steps, verdict => parseLines rest steps verdict
  | .malformed c :: _, steps, verdict => (steps, verdict, some (.jsonDecodeError c))
  | .json j :: rest, steps, verdict =>
      match processLine j steps verdict with
      | .ok (s, v) => parseLines rest s v
      | .error e => (steps, verdict, some e)

/-- `VerificationOutputParser.parse` (parser.py lines 10-55): on a failed
execution returns empty results and no error; otherwise scans the stdout
lines. -/
def parse (execution_result : CodeExecutionResult) :
    List StepVerification × Option Json × Option PyErr :=
  if execution_result.success then parseLines execution_result.stdoutLines [] none
  else ([], none, none)

end VerificationOutputParser

/-! ## Verification pipeline (verification.py)

`VerificationPipeline.verify` interacts with two external effects: the
code-generation oracle (`SymPyCodeGenerator.generate` /
`_get_repaired_code`, both LLM calls) and the sandbox executor.  These are
abstracted as a `PipelineEnv`: `gen` is the initial code generation (`.error`
when `generate` raises), `exec` maps a code string to the executor's result
for it, and `repairGen` is the outcome of `_get_repaired_code` (`.error` when
the LLM call raises or no code block is extractable).  `verify` additionally
returns the number of code generations, executions and repair attempts its
control path performs, so that the call bounds of the design can be stated.
The `reasoning_output` payload and the host `str()` rendering of interpolated
values in error messages are not modelled. -/

/-- `ErrorType` (verification_types.py). -/
inductive ErrorType where
  | syntax_error | import_error | runtime_error | timeout
  | assertion_failed | answer_mismatch | incomplete_verification
  | symbolic_failure | contract_violation
deriving DecidableEq, Repr

/-- `VerificationError` (verification_types.py); the optional line-number,
code and fix fields are never set by the pipeline and are omitted. -/
structure VerificationError where
  error_type : ErrorType
  message : String
deriving DecidableEq, Repr

/-- The `status` strings of `VerificationResult`. -/
inductive Status where
  | verified | failed_reasoning | failed_codegen | failed_pipeline
deriving DecidableEq, Repr

/-- `VerificationResult` (verification_types.py); `metadata` is modelled by
the two flags the pipeline writes into it. -/
structure VerificationResult where
  status : Status
  confidence_score : ℚ
  generated_code : String
  execution_result : Option CodeExecutionResult := none
  step_verifications : List StepVerification := []
  answer_match : Option Bool := none
  errors : List VerificationError := []
  repaired_from_codegen_fault : Bool := false
  pipeline_failure : Bool := false

/-- Rounding to 4 decimal places, `round(x, 4)`.  (Python rounds binary
floats half-to-even; no value the pipeline produces at the claims under
study is a tie at the 4th decimal.) -/
def round4 (q : ℚ) : ℚ := (⌊q * 10000 + 1/2⌋ : ℚ) / 10000

namespace VerificationPipeline

open Json VerificationOutputParser

/-- `final_verdict.get("final_answer_verified", False)` followed by a Python
truthiness test (`verify` line 62 and `_handle_codegen_fault` line 100; the
latter uses default `None`, which has the same truthiness as `False`). -/
def favOf (fv : Json) : Bool := ((objGet? fv "final_answer_verified").getD (.bool false)).truthy

/-- `final_verdict.get("final_answer_verified")` stored into the
`Optional[bool]` field `answer_match`.  The parser only ever produces a
verdict whose value at this key is a boolean, so the non-boolean case is
unreachable. -/
def answerMatchOf (fv : Json) : Option Bool :=
  match objGet? fv "final_answer_verified" with
  | some (.bool b) => some b
  | _ => none

/-- `VerificationPipeline._calculate_confidence` (verification.py 180-196). -/
def calculate_confidence (exec_res : CodeExecutionResult)
    (steps : List StepVerification) (final_verdict : Option Json) : ℚ :=
  if !exec_res.success || !((final_verdict.map Json.truthy).getD false) then 0
  else
    let score : ℚ := 1/2
    let score : ℚ :=
      if !steps.isEmpty then
        score + ((steps.filter (fun s => s.verified)).length : ℚ) / (steps.length : ℚ) * (1/4)
      else score + 1/4
    let score : ℚ :=
      if (final_verdict.map favOf).getD false then score + 1/4 else score
    round4 (max 0 (min 1 score))

/-- `VerificationPipeline._create_final_result` (verification.py 145-167). -/
def create_final_result (code : String) (exec_result : CodeExecutionResult)
    (steps : List StepVerification) (final_verdict : Json) (status : Status)
    (repaired_from_codegen_fault : Bool) : VerificationResult :=
  let confidence := calculate_confidence exec_result steps (some final_verdict)
  let errors : List VerificationError :=
    if status = .failed_reasoning then
      (match steps.filter (fun s => !s.verified) with
       | [] => []
       | s :: _ =>
         [⟨.assertion_failed,
           "Step " ++ toString s.step_number ++ " failed verification: " ++ s.description⟩])
      ++ (if !(favOf final_verdict) then
            [⟨.answer_mismatch, "Final answer mismatch."⟩]
          else [])
    else []
  { status := status
    confidence_score := confidence
    generated_code := code
    execution_result := some exec_result
    step_verifications := steps
    answer_match := answerMatchOf final_verdict
    errors := errors
    repaired_from_codegen_fault := repaired_from_codegen_fault
    pipeline_failure := false }

/-- `VerificationPipeline._create_failure_result` (verification.py 169-178);
`errors or [default]` treats an empty list like `None`. -/
def create_failure_result (code : String) (error_msg : String)
    (errors : Option (List VerificationError)) : VerificationResult :=
  { status := .failed_pipeline
    confidence_score := 0
    generated_code := code
    errors :=
      match errors with
      | some es => if es.isEmpty then [⟨.runtime_error, error_msg⟩] else es
      | none => [⟨.runtime_error, error_msg⟩]
    pipeline_failure := true }

/-- The external interactions of one `VerificationPipeline.verify` call. -/
structure PipelineEnv where
  gen : Except String String
  exec : String → CodeExecutionResult
  repairGen : Except String String

/-- How many code generations (LLM calls producing code), sandbox executions
and repair attempts a `verify` control path performs. -/
structure CallCounts where
  codegen_calls : Nat
  exec_calls : Nat
  repair_attempts : Nat
deriving DecidableEq, Repr

/-- A rendering of a caught line-interpretation exception, standing in for
Python's `str(e)` in the `f"Output parsing failed: {parsing_error}"`
message. -/
def pyErrStr : PyErr → String
  | .jsonDecodeError c => "Expecting value: " ++ c
  | .typeError m => m
  | .attributeError m => m
  | .validationError m => m

/-- `VerificationPipeline._handle_codegen_fault` (verification.py 73-106):
one targeted repair; any failure of the repaired code (execution, parse
error, or missing/falsy verdict) raises internally and is converted to a
`failed_pipeline` result by the `except` clause. -/
def handle_codegen_fault (env : PipelineEnv) (original_code : String)
    (exec_result : CodeExecutionResult) (extra_error : Option String) :
    VerificationResult × CallCounts :=
  let error_message :=
    if exec_result.stderr != "" then exec_result.stderr
    else match extra_error with
         | some e => if e != "" then e else "Unknown execution error."
         | none => "Unknown execution error."
  let fail (msg : String) : VerificationResult :=
    create_failure_result original_code ("Codegen fault repair failed: " ++ msg)
      (some [⟨.syntax_error, error_message⟩])
  match env.repairGen with
  | .error e => (fail e, ⟨2, 1, 1⟩)
  | .ok repaired_code =>
      let new_exec_result := env.exec repaired_code
      if !new_exec_result.success then
        (fail "Repaired code also failed to execute.", ⟨2, 2, 1⟩)
      else
        let (steps, final_verdict, parsing_error) := parse new_exec_result
        if parsing_error.isSome || !((final_verdict.map Json.truthy).getD false) then
          (fail "Repaired code still violates the verification contract.", ⟨2, 2, 1⟩)
        else
          match final_verdict with
          | some fv =>
              let status : Status :=
                if steps.all (fun s => s.verified) && favOf fv then .verified
                else .failed_reasoning
              (create_final_result repaired_code new_exec_result steps fv status true,
               ⟨2, 2, 1⟩)
          | none =>
              (fail "Repaired code still violates the verification contract.", ⟨2, 2, 1⟩)

/-- `VerificationPipeline.verify` (verification.py 28-71): Generate →
Execute → Parse → Diagnose, with the single-shot codegen repair on
execution or contract failure. -/
def verify (env : PipelineEnv) : VerificationResult × CallCounts :=
  match env.gen with
  | .error e =>
      (create_failure_result "" ("Initial code generation failed: " ++ e) none, ⟨1, 0, 0⟩)
  | .ok code =>
      let execution_result := env.exec code
      if !execution_result.success then
        handle_codegen_fault env code execution_result none
      else
        let (steps, final_verdict, parsing_error) := parse execution_result
        match parsing_error with
        | some pe =>
            handle_codegen_fault env code execution_result
              (some ("Output parsing failed: " ++ pyErrStr pe))
        | none =>
            match final_verdict with
            | none =>
                handle_codegen_fault env code execution_result
                  (some "Missing final_answer_verified JSON object in output.")
            | some fv =>
                if !fv.truthy then
                  handle_codegen_fault env code execution_result
                    (some "Missing final_answer_verified JSON object in output.")
                else
                  let all_steps_ok := steps.all (fun s => s.verified)
                  let answer_ok := favOf fv
                  if all_steps_ok && answer_ok then
                    (create_final_result code execution_result steps fv .verified false,
                     ⟨1, 1, 0⟩)
                  else
                    (create_final_result code execution_result steps fv .failed_reasoning false,
                     ⟨1, 1, 0⟩)

end VerificationPipeline

/-! ## Sandbox executor (executor.py)

`SafeExecutor.execute` manipulates process-local state: it swaps
`sys.stdout`/`sys.stderr` for `StringIO` captures, applies an address-space
rlimit, installs a SIGALRM handler with an alarm, runs the code, and in
`finally` blocks disables the alarm, restores the handler and restores the
streams.  `ProcState` records that state; stream and handler identities are
abstract numbers (a fresh capture or handler gets a new number).  What the
`exec`-ed code itself does is abstracted as an `ExecBehavior`; the sandboxed
namespace gives the code no access to `sys`, `signal` or `resource`, so it
cannot alter `ProcState`.  The parameter `resource_ok` says whether the
`resource.setrlimit` call in `_apply_resource_limits` succeeds (it raises
ImportError on non-POSIX hosts and ValueError when the requested limit
exceeds the current hard limit; both are caught and only warned about). -/

/-- Process-local state read and written by `SafeExecutor.execute`. -/
structure ProcState where
  stdoutTarget : Nat
  stderrTarget : Nat
  sigalrmHandler : Nat
  alarmSeconds : Nat
  rlimitAS : Option Nat
deriving DecidableEq, Repr

/-- What `exec(code, namespace)` does for one source string, observed at the
boundary of `SafeExecutor.execute`: a static syntax error (raised by
`ast.parse` before execution), an `ImportError` from `_restricted_import`,
some other uncaught exception, a `MemoryError` from the address-space limit,
the SIGALRM deadline firing, or a clean run.  Failure constructors carry the
stdout/stderr the code produced before failing. -/
inductive ExecBehavior where
  | syntaxError (msg : String)
  | disallowedImport (modName : String) (out : List Line) (err : String)
  | raises (excType excMsg : String) (out : List Line) (err : String)
  | memoryExceeded (out : List Line) (err : String)
  | timesOut (out : List Line) (err : String)
  | completes (out : List Line) (err : String)

namespace SafeExecutor

/-- The constructor arguments of `SafeExecutor` (executor.py 18-20). -/
structure Config where
  timeout : Nat := 30
  max_memory_mb : Nat := 512
deriving DecidableEq, Repr

/-- The allow-list of `_restricted_import` (executor.py 38-46). -/
def allowed_modules : List String :=
  ["sympy", "json", "math", "itertools", "functools", "operator", "collections"]

/-- The message of the `ImportError` raised by `_restricted_import`. -/
def importErrorMsg (name : String) : String :=
  "Import of module '" ++ name ++ "' is not allowed. Only " ++
    String.intercalate ", " allowed_modules ++ " are permitted."

/-- `SafeExecutor._restricted_import` (executor.py 36-49): allow the import
when the root package is allow-listed, otherwise raise ImportError. -/
def restricted_import (name : String) : Except String Unit :=
  if ((name.splitOn ".").headD "") ∈ allowed_modules then .ok ()
  else .error (importErrorMsg name)

/-- The message of the `TimeoutError` raised by the SIGALRM handler of
`_timeout_context` (executor.py 25-26). -/
def timeoutMsg (cfg : Config) : String :=
  "Execution exceeded the time limit of " ++ toString cfg.timeout ++ " seconds."

/-- A stand-in for `traceback.format_exc()` appended to captured stderr on
failure: always a non-empty text naming the exception. -/
def fmtTraceback (excType excMsg : String) : String :=
  "Traceback (most recent call last): ... " ++ excType ++ ": " ++ excMsg

/-- `SafeExecutor._apply_resource_limits` (executor.py 127-137): set the
address-space rlimit; on ImportError/ValueError leave it unchanged and print
a warning to (the currently redirected) stderr.  Returns the new state and
the warning text. -/
def apply_resource_limits (cfg : Config) (resource_ok : Bool) (s : ProcState) :
    ProcState × String :=
  if resource_ok then
    ({ s with rlimitAS := some (cfg.max_memory_mb * 1024 * 1024) }, "")
  else
    (s, "Warning: Could not set memory limits. 'resource' module not available.\n")

/-- The exception classification of one behavior: `type(e).__name__` and
`str(e)` for the exception that reaches the `except Exception` clause, or
`none` for a clean run. -/
def excOf (cfg : Config) : ExecBehavior → Option (String × String)
  | .syntaxError msg => some ("SyntaxError", msg)
  | .disallowedImport name _ _ => some ("ImportError", importErrorMsg name)
  | .raises t m _ _ => some (t, m)
  | .memoryExceeded _ _ => some ("MemoryError", "")
  | .timesOut _ _ => some ("TimeoutError", timeoutMsg cfg)
  | .completes _ _ => none

/-- The stdout lines the capture holds when the `except`/return runs. -/
def outOf : ExecBehavior → List Line
  | .syntaxError _ => []
  | .disallowedImport _ out _ => out
  | .raises _ _ out _ => out
  | .memoryExceeded out _ => out
  | .timesOut out _ => out
  | .completes out _ => out

/-- The stderr text the capture holds when the `except`/return runs (before
the traceback is appended). -/
def errOf : ExecBehavior → String
  | .syntaxError _ => ""
  | .disallowedImport _ _ err => err
  | .raises _ _ _ err => err
  | .memoryExceeded _ err => err
  | .timesOut _ err => err
  | .completes _ err => err

/-- `SafeExecutor.execute` (executor.py 81-125) as a state transformer: the
sequence save streams → `ast.parse` → redirect streams → apply rlimit →
install SIGALRM handler and alarm → `exec` → disable alarm, restore handler
(`_timeout_context` finally) → restore streams (outer finally), with every
exception converted to a failed `CodeExecutionResult` by the
`except Exception` clause. -/
def execute (cfg : Config) (resource_ok : Bool) (b : ExecBehavior) (s : ProcState) :
    CodeExecutionResult × ProcState :=
  let old_stdout := s.stdoutTarget
  let old_stderr := s.stderrTarget
  match b with
  | .syntaxError msg =>
      -- `ast.parse` raises before the streams are redirected, the rlimit is
      -- applied or the alarm is installed; the finally re-assigns the
      -- already-current stream targets.
      ({ success := false, stdoutLines := [], stderr := fmtTraceback "SyntaxError" msg,
         exception_type := some "SyntaxError", exception_message := some msg,
         exception_traceback := some (fmtTraceback "SyntaxError" msg) }, s)
  | _ =>
      let s1 := { s with stdoutTarget := s.stdoutTarget + 1,
                         stderrTarget := s.stderrTarget + 1 }
      let (s2, warn) := apply_resource_limits cfg resource_ok s1
      let original_handler := s2.sigalrmHandler
      let s3 := { s2 with sigalrmHandler := s2.sigalrmHandler + 1,
                          alarmSeconds := cfg.timeout }
      -- exec(code, self._create_safe_namespace()) runs here
      let s4 := { s3 with alarmSeconds := 0, sigalrmHandler := original_handler }
      let s5 := { s4 with stdoutTarget := old_stdout, stderrTarget := old_stderr }
      match excOf cfg b with
      | none =>
          ({ success := true, stdoutLines := outOf b, stderr := warn ++ errOf b }, s5)
      | some (t, m) =>
          ({ success := false, stdoutLines := outOf b,
             stderr := warn ++ errOf b ++ fmtTraceback t m,
             exception_type := some t, exception_message := some m,
             exception_traceback := some (fmtTraceback t m) }, s5)

end SafeExecutor

/-! ## Verification orchestrator (verification_orchestrator.py)

`verify_with_repair` drives the reasoning-repair loop.  Its external effects
are the pipeline runs (`pipelineRuns n` is the result of the (n+1)-th
`VerificationPipeline.verify` call) and the reasoning-repair oracle
(`repairOk i` says whether `_attempt_reasoning_repair` at loop attempt `i`
produced a new `ReasoningOutput`; the artifact's content only matters through
the subsequent pipeline runs and is not carried).  The model returns the
final `VerificationResult`, the repair history, and the number of pipeline
runs performed. -/

/-- `RepairAttempt` (verification_orchestrator.py 16-25); the wall-clock
`processing_time` and the repaired artifact payload are not modelled. -/
structure RepairAttempt where
  attempt_number : Nat
  repair_type : String
  reason : String
  success : Bool
deriving DecidableEq, Repr

namespace VerificationOrchestrator

/-- The external interactions of one `verify_with_repair` call. -/
structure OrchEnv where
  pipelineRuns : Nat → VerificationResult
  repairOk : Nat → Bool

/-- The `status` string of a result, as interpolated into the repair
reason. -/
def statusStr : Status → String
  | .verified => "verified"
  | .failed_reasoning => "failed_reasoning"
  | .failed_codegen => "failed_codegen"
  | .failed_pipeline => "failed_pipeline"

/-- Iterations `attempt ≥ 1` of the `for attempt in range(max+1)` loop of
`verify_with_repair` (verification_orchestrator.py 44-85): try a reasoning
repair, log it, break if it failed, otherwise re-run the pipeline and apply
the exit checks.  `left` is the number of loop iterations still permitted
by the range. -/
def vwrGo (env : OrchEnv) : Nat → Nat → Nat → List RepairAttempt → VerificationResult →
    VerificationResult × List RepairAttempt × Nat
  | 0, _, runs, hist, prev => (prev, hist, runs)
  | left + 1, attempt, runs, hist, prev =>
      let ok := env.repairOk attempt
      let hist := hist ++
        [⟨attempt, "reasoning",
          "Reasoning verification failed with status: " ++ statusStr prev.status, ok⟩]
      if !ok then (prev, hist, runs)
      else
        let r := env.pipelineRuns runs
        if r.status = .verified then (r, hist, runs + 1)
        else if r.status ≠ .failed_reasoning then (r, hist, runs + 1)
        else vwrGo env left (attempt + 1) (runs + 1) hist r

/-- `VerificationOrchestrator.verify_with_repair`
(verification_orchestrator.py 37-85): the initial pipeline run (loop
iteration `attempt = 0`) followed by up to `max_reasoning_attempts`
reasoning-repair iterations. -/
def verify_with_repair (env : OrchEnv) (max_reasoning_attempts : Nat) :
    VerificationResult × List RepairAttempt × Nat :=
  let r := env.pipelineRuns 0
  if r.status = .verified then (r, [], 1)
  else if r.status ≠ .failed_reasoning then (r, [], 1)
  else vwrGo env max_reasoning_attempts 1 1 [] r

end VerificationOrchestrator

/-! ## Concrete inputs and statement shorthands

Sample stdout lines and environments used to instantiate the theorems, and
two Boolean shorthands used in theorem statements. -/

/-- A contract step object, `{"step": n, "description": d, "verified": b}`. -/
def stepObj (n : Int) (d : String) (b : Bool) : Json :=
  .obj [("step", .num n), ("description", .str d), ("verified", .bool b)]

/-- A contract final-verdict object,
`{"final_answer_verified": b, "computed": "4", "claimed": "4"}`. -/
def favObj (b : Bool) : Json :=
  .obj [("final_answer_verified", .bool b), ("computed", .str "4"), ("claimed", .str "4")]

/-- A successful execution whose captured stdout holds the given lines. -/
def execOk (lines : List Line) : CodeExecutionResult :=
  { success := true, stdoutLines := lines, stderr := "" }

/-- A failed execution (an uncaught ValueError). -/
def execFail : CodeExecutionResult :=
  { success := false, stdoutLines := [], stderr := "Traceback ... ValueError: boom",
    exception_type := some "ValueError", exception_message := some "boom" }

/-- A pipeline environment whose generated code runs cleanly and prints the
given lines; the repair oracle produces no code (it is never consulted on the
clean paths). -/
def envPrinting (lines : List Line) : VerificationPipeline.PipelineEnv :=
  { gen := .ok "code", exec := fun _ => execOk lines, repairGen := .error "no code" }

/-- A pipeline environment in which both the generated and the repaired code
fail to execute. -/
def envDoubleFail : VerificationPipeline.PipelineEnv :=
  { gen := .ok "code", exec := fun _ => execFail, repairGen := .ok "code2" }

/-- Key-presence test on a JSON object's fields, `k in data` for a dict. -/
def hasKeyB (fs : List (String × Json)) (k : String) : Bool :=
  fs.any (fun p => p.1 == k)

/-- A stdout line that stores a final verdict: a JSON object without a
step/verified key pair whose `final_answer_verified` value is a boolean. -/
def favLine : Json → Bool
  | .obj fs =>
      (!(hasKeyB fs "step" && hasKeyB fs "verified")) &&
      hasKeyB fs "final_answer_verified" &&
      (match Json.objGet? (.obj fs) "final_answer_verified" with
       | some (.bool _) => true
       | _ => false)
  | _ => false

/-! ## Theorems -/

/-- C3: for every behavior of the executed code other than a clean
completion — syntax error, disallowed import, uncaught runtime exception,
memory violation, timeout — `SafeExecutor.execute` does not propagate the
exception but returns a `CodeExecutionResult` with `success = false` and
populated `exception_type` and `exception_message` (the totality of
`SafeExecutor.execute` is the model-level rendering of "never raises to its
caller": every behavior, failing or not, is mapped to a result). -/
theorem execute_never_raises (cfg : SafeExecutor.Config) (ra : Bool)
    (b : ExecBehavior) (s : ProcState)
    (hfail : ∀ out err, b ≠ ExecBehavior.completes out err) :
    (SafeExecutor.execute cfg ra b s).1.success = false ∧
    (SafeExecutor.execute cfg ra b s).1.exception_type.isSome = true ∧
    (SafeExecutor.execute cfg ra b s).1.exception_message.isSome = true := by
  cases b with
  | completes out err => exact absurd rfl (hfail out err)
  | syntaxError msg => exact ⟨rfl, rfl, rfl⟩
  | disallowedImport name out err => exact ⟨rfl, rfl, rfl⟩
  | raises t m out err => exact ⟨rfl, rfl, rfl⟩
  | memoryExceeded out err => exact ⟨rfl, rfl, rfl⟩
  | timesOut out err => exact ⟨rfl, rfl, rfl⟩

/-- C3 witness: the theorem applied to an uncaught `ValueError`. -/
theorem execute_never_raises_witness :
    (SafeExecutor.execute ⟨30, 512⟩ true (.raises "ValueError" "boom" [] "") ⟨0, 0, 0, 0, none⟩).1.success = false ∧
    (SafeExecutor.execute ⟨30, 512⟩ true (.raises "ValueError" "boom" [] "") ⟨0, 0, 0, 0, none⟩).1.exception_type.isSome = true ∧
    (SafeExecutor.execute ⟨30, 512⟩ true (.raises "ValueError" "boom" [] "") ⟨0, 0, 0, 0, none⟩).1.exception_message.isSome = true :=
  execute_never_raises ⟨30, 512⟩ true (.raises "ValueError" "boom" [] "") ⟨0, 0, 0, 0, none⟩
    (fun _ _ h => ExecBehavior.noConfusion h)

/-- C7 counterexample: when the deadline fires, the executor's result carries
`exception_type = "TimeoutError"` — the class name of the exception raised by
the SIGALRM handler — not the string `"TimeoutFault"` the claim states. -/
theorem timeout_kind_counterexample :
    (SafeExecutor.execute ⟨30, 512⟩ true (.timesOut [] "") ⟨0, 0, 0, 0, none⟩).1.exception_type
      = some "TimeoutError" ∧
    (SafeExecutor.execute ⟨30, 512⟩ true (.timesOut [] "") ⟨0, 0, 0, 0, none⟩).1.exception_type
      ≠ some "TimeoutFault" := by
  refine ⟨rfl, ?_⟩
  intro h
  simp [SafeExecutor.execute, SafeExecutor.excOf] at h

/-- C7 (amended): a timed-out execution returns `success = false` with
`exception_type = "TimeoutError"` and the handler's deadline message. -/
theorem execute_timeout_classification (cfg : SafeExecutor.Config) (ra : Bool)
    (out : List Line) (err : String) (s : ProcState) :
    (SafeExecutor.execute cfg ra (.timesOut out err) s).1.success = false ∧
    (SafeExecutor.execute cfg ra (.timesOut out err) s).1.exception_type = some "TimeoutError" ∧
    (SafeExecutor.execute cfg ra (.timesOut out err) s).1.exception_message
      = some (SafeExecutor.timeoutMsg cfg) :=
  ⟨rfl, rfl, rfl⟩

/-- C8: with `max_reasoning_attempts = 0`, `verify_with_repair` performs
exactly one pipeline run and returns an empty repair history, whatever the
run's status. -/
theorem verify_with_repair_zero_attempts (env : VerificationOrchestrator.OrchEnv) :
    VerificationOrchestrator.verify_with_repair env 0 = (env.pipelineRuns 0, [], 1) := by
  simp only [VerificationOrchestrator.verify_with_repair, VerificationOrchestrator.vwrGo]
  split
  · rfl
  · split
    · rfl
    · rfl

/-- C9 counterexample: starting from a process with no address-space limit, a
clean execution leaves the process state changed — the rlimit installed by
`_apply_resource_limits` (512 MiB here) is never removed, so the side effects
of `execute` are not fully reversed. -/
theorem execute_state_not_reversed_counterexample :
    (SafeExecutor.execute ⟨30, 512⟩ true (.completes [] "") ⟨0, 0, 0, 0, none⟩).2
      ≠ (⟨0, 0, 0, 0, none⟩ : ProcState) ∧
    (SafeExecutor.execute ⟨30, 512⟩ true (.completes [] "") ⟨0, 0, 0, 0, none⟩).2.rlimitAS
      = some 536870912 := by
  constructor
  · decide
  · rfl

/-- C9 (amended): after every `execute` call the stream redirection and the
SIGALRM handler are restored and the alarm is cleared, but the address-space
resource limit applied by `_apply_resource_limits` persists (nothing resets
it), so that piece of state set up for one execution survives into subsequent
calls; a pre-execution syntax error touches no state at all. -/
theorem execute_state_effects (cfg : SafeExecutor.Config) (ra : Bool)
    (b : ExecBehavior) (s : ProcState) :
    (SafeExecutor.execute cfg ra b s).2.stdoutTarget = s.stdoutTarget ∧
    (SafeExecutor.execute cfg ra b s).2.stderrTarget = s.stderrTarget ∧
    (SafeExecutor.execute cfg ra b s).2.sigalrmHandler = s.sigalrmHandler ∧
    (match b with
     | .syntaxError _ => (SafeExecutor.execute cfg ra b s).2 = s
     | _ => (SafeExecutor.execute cfg ra b s).2 =
         { s with alarmSeconds := 0,
                  rlimitAS := if ra then some (cfg.max_memory_mb * 1024 * 1024)
                              else s.rlimitAS }) := by
  cases b <;> cases ra <;> exact ⟨rfl, rfl, rfl, rfl⟩

/-- Parser helper: a prefix scanned without error composes with the remaining
lines. -/
theorem parseLines_append (pre rest : List Line) (S : List StepVerification)
    (V : Option Json)
    (h : (VerificationOutputParser.parseLines pre S V).2.2 = none) :
    VerificationOutputParser.parseLines (pre ++ rest) S V =
      VerificationOutputParser.parseLines rest
        (VerificationOutputParser.parseLines pre S V).1
        (VerificationOutputParser.parseLines pre S V).2.1 := by
  induction pre generalizing S V with
  | nil => rfl
  | cons l pre ih =>
      cases l with
      | blank =>
          simp only [List.cons_append, VerificationOutputParser.parseLines] at h ⊢
          exact ih S V h
      | malformed c => simp [VerificationOutputParser.parseLines] at h
      | json j =>
          cases hp : VerificationOutputParser.processLine j S V with
          | ok p =>
              obtain ⟨s', v'⟩ := p
              simp only [List.cons_append, VerificationOutputParser.parseLines, hp] at h ⊢
              exact ih s' v' h
          | error e =>
              simp [VerificationOutputParser.parseLines, hp] at h

/-- Parser helper: a scan that ends in an error splits the line list into a
cleanly-scanned prefix, the offending line, and an unread remainder. -/
theorem parseLines_error_split (lines : List Line) (S : List StepVerification)
    (V : Option Json) (steps : List StepVerification) (v : Option Json) (e : PyErr)
    (h : VerificationOutputParser.parseLines lines S V = (steps, v, some e)) :
    ∃ pre bad rest, lines = pre ++ bad :: rest ∧
      VerificationOutputParser.parseLines pre S V = (steps, v, none) ∧
      ((∃ c, bad = Line.malformed c ∧ e = .jsonDecodeError c) ∨
       (∃ j, bad = Line.json j ∧
          VerificationOutputParser.processLine j steps v = .error e)) := by
  induction lines generalizing S V with
  | nil => simp [VerificationOutputParser.parseLines] at h
  | cons l rest ih =>
      cases l with
      | blank =>
          simp only [VerificationOutputParser.parseLines] at h
          obtain ⟨pre, bad, r', hsplit, hpre, hbad⟩ := ih S V h
          exact ⟨.blank :: pre, bad, r', by simp [hsplit],
                 by simpa [VerificationOutputParser.parseLines] using hpre, hbad⟩
      | malformed c =>
          simp only [VerificationOutputParser.parseLines] at h
          injection h with h1 h23
          injection h23 with h2 h3
          injection h3 with h3
          subst h1; subst h2; subst h3
          exact ⟨[], .malformed c, rest, rfl, rfl, .inl ⟨c, rfl, rfl⟩⟩
      | json j =>
          cases hp : VerificationOutputParser.processLine j S V with
          | ok p =>
              obtain ⟨s', v'⟩ := p
              simp only [VerificationOutputParser.parseLines, hp] at h
              obtain ⟨pre, bad, r', hsplit, hpre, hbad⟩ := ih s' v' h
              exact ⟨.json j :: pre, bad, r', by simp [hsplit],
                     by simp [VerificationOutputParser.parseLines, hp, hpre], hbad⟩
          | error e' =>
              simp only [VerificationOutputParser.parseLines, hp] at h
              injection h with h1 h23
              injection h23 with h2 h3
              injection h3 with h3
              subst h1; subst h2; subst h3
              exact ⟨[], .json j, rest, rfl, rfl, .inr ⟨j, rfl, hp⟩⟩

/-- C10: whenever `parse` returns a parse error, the returned steps and
verdict are exactly the partial results accumulated from the lines preceding
the offending line (there is a cleanly-scanned prefix producing them, and the
next line is the one that failed — a non-JSON line or a JSON line whose
interpretation raised), so every contract-conforming step line before the
failure point is still present. -/
theorem parse_error_returns_partial (r : CodeExecutionResult)
    (steps : List StepVerification) (v : Option Json) (e : PyErr)
    (h : VerificationOutputParser.parse r = (steps, v, some e)) :
    r.success = true ∧
    ∃ pre bad rest, r.stdoutLines = pre ++ bad :: rest ∧
      VerificationOutputParser.parseLines pre [] none = (steps, v, none) ∧
      ((∃ c, bad = Line.malformed c ∧ e = .jsonDecodeError c) ∨
       (∃ j, bad = Line.json j ∧
          VerificationOutputParser.processLine j steps v = .error e)) := by
  unfold VerificationOutputParser.parse at h
  by_cases hs : r.success = true
  · rw [if_pos hs] at h
    exact ⟨hs, parseLines_error_split _ _ _ _ _ _ h⟩
  · rw [if_neg hs] at h
    injection h with h1 h23
    injection h23 with h2 h3
    exact absurd h3 (by simp)

/-- C10 witness: the theorem applied to a run printing one conforming step
line followed by a non-JSON line. -/
theorem parse_error_returns_partial_witness :
    (execOk [.json (stepObj 1 "ok" true), .malformed "oops"]).success = true ∧
    ∃ pre bad rest,
      (execOk [.json (stepObj 1 "ok" true), .malformed "oops"]).stdoutLines
        = pre ++ bad :: rest ∧
      VerificationOutputParser.parseLines pre [] none = ([⟨1, "ok", true⟩], none, none) ∧
      ((∃ c, bad = Line.malformed c ∧
          (PyErr.jsonDecodeError "oops") = .jsonDecodeError c) ∨
       (∃ j, bad = Line.json j ∧
          VerificationOutputParser.processLine j [⟨1, "ok", true⟩] none
            = .error (PyErr.jsonDecodeError "oops"))) :=
  parse_error_returns_partial _ _ _ _ rfl

/-- Pipeline helper: every path through `_handle_codegen_fault` performs the
one repair generation and at most one further execution. -/
theorem handle_codegen_fault_counts (env : VerificationPipeline.PipelineEnv)
    (oc : String) (r : CodeExecutionResult) (ee : Option String) :
    (VerificationPipeline.handle_codegen_fault env oc r ee).2.codegen_calls = 2 ∧
    (VerificationPipeline.handle_codegen_fault env oc r ee).2.exec_calls ≤ 2 ∧
    (VerificationPipeline.handle_codegen_fault env oc r ee).2.repair_attempts = 1 := by
  rcases hg : env.repairGen with e | rc
  · norm_num [VerificationPipeline.handle_codegen_fault, hg]
  · simp only [VerificationPipeline.handle_codegen_fault, hg]
    split
    · norm_num
    · split
      · norm_num
      · cases hfv : (VerificationOutputParser.parse (env.exec rc)).2.1 with
        | none => simp only [hfv]; norm_num
        | some fv => simp only [hfv]; norm_num

/-- C5 counterexample: stdout holds the scalar JSON line `5`, then a
conforming step line, then the non-JSON line `not-json`.  Parsing does not
stop at the first non-JSON line: it stops earlier, at `5` (whose `"step" in
data` membership test raises TypeError), so the returned error is that
TypeError rather than a JSON-decode error for `not-json`, and the conforming
step line that precedes the non-JSON line is absent from the returned
list. -/
theorem parse_first_nonjson_counterexample :
    (VerificationOutputParser.parse
      (execOk [.json (.num 5), .json (stepObj 1 "ok" true), .malformed "not-json"])).1
      = [] ∧
    (VerificationOutputParser.parse
      (execOk [.json (.num 5), .json (stepObj 1 "ok" true), .malformed "not-json"])).2.2
      = some (.typeError "argument of type is not iterable") ∧
    some (PyErr.typeError "argument of type is not iterable")
      ≠ some (PyErr.jsonDecodeError "not-json") :=
  ⟨rfl, rfl, by decide⟩

/-- C5 (amended): for every run whose generated code executes successfully
and prints a non-JSON line, provided the lines before the first non-JSON line
are blank or interpreted without raising, `parse` stops at that line and
returns a non-empty parse error carrying its content, and the pipeline
diagnoses a codegen fault and attempts exactly one repair (one repair code
generation, for two in total). -/
theorem parse_stops_and_one_repair (env : VerificationPipeline.PipelineEnv)
    (code : String) (pre : List Line) (c : String) (rest : List Line)
    (steps : List StepVerification) (v : Option Json)
    (hgen : env.gen = .ok code)
    (hsucc : (env.exec code).success = true)
    (hlines : (env.exec code).stdoutLines = pre ++ Line.malformed c :: rest)
    (hpre : VerificationOutputParser.parseLines pre [] none = (steps, v, none)) :
    VerificationOutputParser.parse (env.exec code)
      = (steps, v, some (.jsonDecodeError c)) ∧
    (VerificationPipeline.verify env).2.repair_attempts = 1 ∧
    (VerificationPipeline.verify env).2.codegen_calls = 2 := by
  have hparse : VerificationOutputParser.parse (env.exec code)
      = (steps, v, some (.jsonDecodeError c)) := by
    unfold VerificationOutputParser.parse
    rw [if_pos hsucc, hlines, parseLines_append _ _ _ _ (by rw [hpre]), hpre]
    rfl
  have hv : VerificationPipeline.verify env =
      VerificationPipeline.handle_codegen_fault env code (env.exec code)
        (some ("Output parsing failed: " ++
          VerificationPipeline.pyErrStr (.jsonDecodeError c))) := by
    simp only [VerificationPipeline.verify, hgen, hsucc, Bool.not_true, hparse]
    rfl
  refine ⟨hparse, ?_, ?_⟩
  · rw [hv]
    exact (handle_codegen_fault_counts env code (env.exec code) _).2.2
  · rw [hv]
    exact (handle_codegen_fault_counts env code (env.exec code) _).1

/-- C5 witness: the amended theorem applied to a run printing one conforming
step line and then `not-json`. -/
theorem parse_stops_and_one_repair_witness :
    VerificationOutputParser.parse
        ((envPrinting [.json (stepObj 1 "ok" true), .malformed "not-json"]).exec "code")
      = ([⟨1, "ok", true⟩], none, some (.jsonDecodeError "not-json")) ∧
    (VerificationPipeline.verify
        (envPrinting [.json (stepObj 1 "ok" true), .malformed "not-json"])).2.repair_attempts
      = 1 ∧
    (VerificationPipeline.verify
        (envPrinting [.json (stepObj 1 "ok" true), .malformed "not-json"])).2.codegen_calls
      = 2 :=
  parse_stops_and_one_repair _ "code" [.json (stepObj 1 "ok" true)] "not-json" []
    [⟨1, "ok", true⟩] none rfl rfl rfl rfl

/-- `in` on a dict is the key test. -/
theorem memKey_obj (fs : List (String × Json)) (k : String) :
    Json.memKey (.obj fs) k = .ok (hasKeyB fs k) := rfl

/-- A successful dict lookup implies the key test succeeds. -/
theorem hasKeyB_of_objGet {fs : List (String × Json)} {k : String} {v : Json}
    (h : Json.objGet? (.obj fs) k = some v) : hasKeyB fs k = true := by
  simp only [Json.objGet?, Option.map_eq_some'] at h
  obtain ⟨p, hfind, hsnd⟩ := h
  have hp := List.find?_some hfind
  exact List.any_eq_true.mpr ⟨p, List.mem_of_find?_eq_some hfind, hp⟩

/-- A successful dict lookup determines `data[k]`. -/
theorem getItem_of_objGet {fs : List (String × Json)} {k : String} {v : Json}
    (h : Json.objGet? (.obj fs) k = some v) : Json.getItem (.obj fs) k = .ok v := by
  simp only [Json.objGet?] at h
  simp [Json.getItem, h]

/-- A successful dict lookup determines `data.get(k, d)`. -/
theorem dictGet_of_objGet {fs : List (String × Json)} {k : String} {v : Json} (d : Json)
    (h : Json.objGet? (.obj fs) k = some v) : Json.dictGet (.obj fs) k d = .ok v := by
  simp only [Json.objGet?] at h
  simp [Json.dictGet, h]

/-- A successful key test yields a dict lookup value. -/
theorem objGet_of_hasKey {fs : List (String × Json)} {k : String}
    (h : hasKeyB fs k = true) : ∃ v, Json.objGet? (.obj fs) k = some v := by
  have hsome := List.find?_isSome.mpr (List.any_eq_true.mp h)
  obtain ⟨p, hp⟩ := Option.isSome_iff_exists.mp hsome
  exact ⟨p.2, by simp [Json.objGet?, hp]⟩

/-- A verdict-storing line is accepted by the loop body and replaces the
carried verdict. -/
theorem processLine_favLine (j : Json) (steps : List StepVerification)
    (v : Option Json) (h : favLine j = true) :
    VerificationOutputParser.processLine j steps v = .ok (steps, some j) := by
  cases j with
  | null => simp [favLine] at h
  | bool b => simp [favLine] at h
  | num n => simp [favLine] at h
  | flt => simp [favLine] at h
  | str s => simp [favLine] at h
  | arr xs => simp [favLine] at h
  | obj fs =>
      simp only [favLine, Bool.and_eq_true] at h
      obtain ⟨⟨hpair, hfav⟩, hmatch⟩ := h
      have hpair2 : (hasKeyB fs "step" && hasKeyB fs "verified") = false := by
        cases hcomb : (hasKeyB fs "step" && hasKeyB fs "verified") with
        | false => rfl
        | true => rw [hcomb] at hpair; simp at hpair
      rcases hbm : Json.objGet? (.obj fs) "final_answer_verified" with _ | fv
      · rw [hbm] at hmatch; simp at hmatch
      · rw [hbm] at hmatch
        cases fv with
        | bool b =>
            have hdg := dictGet_of_objGet Json.null hbm
            cases hs : hasKeyB fs "step" with
            | false =>
                simp only [VerificationOutputParser.processLine, memKey_obj, hs, hfav, hdg]
                rfl
            | true =>
                have hv2 : hasKeyB fs "verified" = false := by
                  cases hv3 : hasKeyB fs "verified" with
                  | false => rfl
                  | true => rw [hs, hv3] at hpair2; simp at hpair2
                simp only [VerificationOutputParser.processLine, memKey_obj, hs, hv2,
                  hfav, hdg]
                rfl
        | null => simp at hmatch
        | num n => simp at hmatch
        | flt => simp at hmatch
        | str s => simp at hmatch
        | arr xs => simp at hmatch
        | obj gs => simp at hmatch

/-- C6 counterexample: a successful execution printing the single stdout
line `5` — JSON, but "other JSON content" in the claim's terms — is not
skipped as noise: the `"step" in data` membership test raises TypeError and
`parse` returns it as a parse error. -/
theorem json_scalar_noise_counterexample :
    (VerificationOutputParser.parse (execOk [.json (.num 5)])).2.2
      = some (.typeError "argument of type is not iterable") ∧
    (VerificationOutputParser.parse (execOk [.json (.num 5)])).2.2 ≠ none :=
  ⟨rfl, by decide⟩

/-- C6 (amended): JSON *object* lines that fail the parser's type guards are
skipped as tolerated noise without a parse error — both a step/verified pair
whose step is not an integer (host booleans count as integers) or whose
verified is not a boolean, and objects without such a pair whose
`final_answer_verified` is absent or non-boolean; among object lines that
store a boolean `final_answer_verified` (and no step/verified pair), the last
one becomes the returned verdict.  (Lines parsing to non-object JSON are not
tolerated in general: their interpretation can raise, and the exception is
returned as a parse error.) -/
theorem object_noise_skipped_last_verdict_wins :
    (∀ (fs : List (String × Json)) (steps : List StepVerification) (v : Option Json)
       (sv vv : Json),
       Json.objGet? (.obj fs) "step" = some sv →
       Json.objGet? (.obj fs) "verified" = some vv →
       (Json.isInstInt sv = false ∨ Json.isInstBool vv = false) →
       VerificationOutputParser.processLine (.obj fs) steps v = .ok (steps, v)) ∧
    (∀ (fs : List (String × Json)) (steps : List StepVerification) (v : Option Json),
       (hasKeyB fs "step" && hasKeyB fs "verified") = false →
       (∀ fv, Json.objGet? (.obj fs) "final_answer_verified" = some fv →
          Json.isInstBool fv = false) →
       VerificationOutputParser.processLine (.obj fs) steps v = .ok (steps, v)) ∧
    (∀ (js : List Json) (steps : List StepVerification) (v : Option Json),
       (∀ j ∈ js, favLine j = true) →
       VerificationOutputParser.parseLines (js.map Line.json) steps v
         = (steps, js.getLast?.or v, none)) := by
  refine ⟨?_, ?_, ?_⟩
  · intro fs steps v sv vv hsv hvv hbad
    have hks := hasKeyB_of_objGet hsv
    have hkv := hasKeyB_of_objGet hvv
    have hgs := getItem_of_objGet hsv
    have hgv := getItem_of_objGet hvv
    rcases hbad with hb | hb
    · simp only [VerificationOutputParser.processLine, memKey_obj, hks, hkv, hgs, hb]
      rfl
    · cases hi : Json.isInstInt sv with
      | false =>
          simp only [VerificationOutputParser.processLine, memKey_obj, hks, hkv, hgs, hi]
          rfl
      | true =>
          simp only [VerificationOutputParser.processLine, memKey_obj, hks, hkv, hgs,
            hgv, hi, hb]
          rfl
  · intro fs steps v hpair hfv
    cases hfav : hasKeyB fs "final_answer_verified" with
    | false =>
        cases hs : hasKeyB fs "step" with
        | false =>
            simp only [VerificationOutputParser.processLine, memKey_obj, hs, hfav]
            rfl
        | true =>
            have hv2 : hasKeyB fs "verified" = false := by
              cases hv3 : hasKeyB fs "verified" with
              | false => rfl
              | true => rw [hs, hv3] at hpair; simp at hpair
            simp only [VerificationOutputParser.processLine, memKey_obj, hs, hv2, hfav]
            rfl
    | true =>
        obtain ⟨fv, hfvg⟩ := objGet_of_hasKey hfav
        have hnb := hfv fv hfvg
        have hdg := dictGet_of_objGet Json.null hfvg
        cases hs : hasKeyB fs "step" with
        | false =>
            simp only [VerificationOutputParser.processLine, memKey_obj, hs, hfav,
              hdg, hnb]
            rfl
        | true =>
            have hv2 : hasKeyB fs "verified" = false := by
              cases hv3 : hasKeyB fs "verified" with
              | false => rfl
              | true => rw [hs, hv3] at hpair; simp at hpair
            simp only [VerificationOutputParser.processLine, memKey_obj, hs, hv2,
              hfav, hdg, hnb]
            rfl
  · intro js
    induction js with
    | nil => intro steps v h; rfl
    | cons j rest ih =>
        intro steps v h
        have hj := processLine_favLine j steps v (h j (by simp))
        simp only [List.map, VerificationOutputParser.parseLines, hj]
        rw [ih steps (some j) (fun x hx => h x (by simp [hx]))]
        rcases rest with _ | ⟨r, rs⟩
        · simp [Option.or]
        · have hrs : ((r :: rs).getLast?).isSome = true := by
            simp [List.getLast?_isSome]
          obtain ⟨x, hx⟩ := Option.isSome_iff_exists.mp hrs
          simp [List.getLast?_cons_cons, hx, Option.or]

/-- C6 witness: the amended theorem applied to a wrong-typed step pair, to an
object with a numeric `final_answer_verified`, and to two verdict lines (the
later one wins). -/
theorem object_noise_skipped_last_verdict_wins_witness :
    VerificationOutputParser.processLine
        (.obj [("step", .str "x"), ("verified", .bool true)]) [] none = .ok ([], none) ∧
    VerificationOutputParser.processLine
        (.obj [("final_answer_verified", .num 1)]) [] none = .ok ([], none) ∧
    VerificationOutputParser.parseLines
        ([favObj true, favObj false].map Line.json) [] none
      = ([], ([favObj true, favObj false].getLast?).or none, none) :=
  ⟨object_noise_skipped_last_verdict_wins.1 _ [] none (.str "x") (.bool true) rfl rfl
     (Or.inl rfl),
   object_noise_skipped_last_verdict_wins.2.1 _ [] none rfl
     (fun fv h => by
        have h2 : some (Json.num 1) = some fv := h
        cases h2
        rfl),
   object_noise_skipped_last_verdict_wins.2.2 [favObj true, favObj false] [] none
     (by decide)⟩

/-- C4: the confidence score is 0 whenever execution failed or no final
verdict was parsed; otherwise (for a run with at least one parsed step) it is
0.5 plus the fraction of verified steps times 0.25, plus 0.25 when the final
verdict is true, clamped to [0,1] and rounded to 4 decimals; and for a clean
run whose steps are all verified with a true final verdict it equals 1
exactly (with no steps the code grants the full step credit, so this holds
for empty step lists too). -/
theorem calculate_confidence_spec (r : CodeExecutionResult)
    (steps : List StepVerification) (fv : Option Json) :
    ((r.success = false ∨ fv = none) →
       VerificationPipeline.calculate_confidence r steps fv = 0) ∧
    (∀ j, r.success = true → fv = some j → j.truthy = true → steps ≠ [] →
       VerificationPipeline.calculate_confidence r steps fv =
         round4 (max 0 (min 1 (1/2 +
           ((steps.filter (fun s => s.verified)).length : ℚ) / (steps.length : ℚ) * (1/4) +
           (if VerificationPipeline.favOf j then (1/4 : ℚ) else 0))))) ∧
    (∀ j, r.success = true → fv = some j → j.truthy = true →
       VerificationPipeline.favOf j = true → (∀ s ∈ steps, s.verified = true) →
       VerificationPipeline.calculate_confidence r steps fv = 1) := by
  refine ⟨?_, ?_, ?_⟩
  · rintro (h | h) <;>
      simp [VerificationPipeline.calculate_confidence, h]
  · intro j hs hfv htr hne
    subst hfv
    have hemp : steps.isEmpty = false := by
      cases steps with
      | nil => exact absurd rfl hne
      | cons a l => rfl
    cases hfav : VerificationPipeline.favOf j with
    | false =>
        simp only [VerificationPipeline.calculate_confidence, hs, htr, hemp, hfav,
          Option.map_some', Option.getD_some, Bool.not_true, Bool.not_false,
          Bool.false_or, Bool.or_false, if_false, ite_false, ite_true,
          Bool.false_eq_true, Bool.true_eq_false]
        rw [add_zero]
    | true =>
        simp only [VerificationPipeline.calculate_confidence, hs, htr, hemp, hfav,
          Option.map_some', Option.getD_some, Bool.not_true, Bool.not_false,
          Bool.false_or, Bool.or_false, if_false, ite_false, ite_true,
          Bool.false_eq_true, Bool.true_eq_false]
  · intro j hs hfv htr hfav hall
    subst hfv
    have hone : round4 (max 0 (min 1 (1 : ℚ))) = 1 := by norm_num [round4]
    cases steps with
    | nil =>
        simp only [VerificationPipeline.calculate_confidence, hs, htr, hfav,
          Option.map_some', Option.getD_some, Bool.not_true, Bool.false_or,
          List.isEmpty_nil, Bool.not_false, Bool.false_eq_true, ite_false, ite_true]
        convert hone using 3
        norm_num
    | cons a l =>
        have hfilter : (a :: l).filter (fun s => s.verified) = a :: l :=
          List.filter_eq_self.mpr (fun x hx => hall x hx)
        have hlen : ((a :: l).length : ℚ) ≠ 0 := by
          simp [List.length_cons]
          positivity
        simp only [VerificationPipeline.calculate_confidence, hs, htr, hfav,
          Option.map_some', Option.getD_some, Bool.not_true, Bool.false_or,
          List.isEmpty_cons, Bool.not_false, Bool.false_eq_true, ite_false, ite_true,
          hfilter]
        rw [div_self hlen]
        convert hone using 3
        norm_num

/-- C4 witness: the theorem applied to a failed execution (score 0) and to a
clean single-step run with a true verdict (formula, and exactly 1). -/
theorem calculate_confidence_spec_witness :
    VerificationPipeline.calculate_confidence execFail [] none = 0 ∧
    VerificationPipeline.calculate_confidence (execOk []) [⟨1, "ok", true⟩]
        (some (favObj true))
      = round4 (max 0 (min 1 (1/2 +
          ((([⟨1, "ok", true⟩] : List StepVerification).filter
              (fun s => s.verified)).length : ℚ) /
            (([⟨1, "ok", true⟩] : List StepVerification).length : ℚ) * (1/4) +
          (if VerificationPipeline.favOf (favObj true) then (1/4 : ℚ) else 0)))) ∧
    VerificationPipeline.calculate_confidence (execOk []) [⟨1, "ok", true⟩]
        (some (favObj true)) = 1 :=
  ⟨(calculate_confidence_spec execFail [] none).1 (Or.inl rfl),
   (calculate_confidence_spec (execOk []) [⟨1, "ok", true⟩] (some (favObj true))).2.1
     (favObj true) rfl rfl rfl (List.cons_ne_nil _ _),
   (calculate_confidence_spec (execOk []) [⟨1, "ok", true⟩] (some (favObj true))).2.2
     (favObj true) rfl rfl rfl rfl (by decide)⟩

/-- Parser helper: the loop body either keeps the carried verdict or replaces
it with the current line's object, which is then a truthy (non-empty) dict. -/
theorem processLine_verdict_cases (j : Json) (steps : List StepVerification)
    (v : Option Json) (s' : List StepVerification) (v' : Option Json)
    (h : VerificationOutputParser.processLine j steps v = .ok (s', v')) :
    v' = v ∨ (v' = some j ∧ j.truthy = true) := by
  cases j with
  | null => exact Except.noConfusion h
  | bool b => exact Except.noConfusion h
  | num n => exact Except.noConfusion h
  | flt => exact Except.noConfusion h
  | str s =>
      simp only [VerificationOutputParser.processLine, Json.memKey, Json.getItem,
        Json.dictGet] at h
      repeat' split at h
      all_goals first
        | exact Except.noConfusion h
        | (injection h with h2; injection h2 with ha hb; exact Or.inl hb.symm)
  | arr xs =>
      simp only [VerificationOutputParser.processLine, Json.memKey, Json.getItem,
        Json.dictGet] at h
      repeat' split at h
      all_goals first
        | exact Except.noConfusion h
        | (injection h with h2; injection h2 with ha hb; exact Or.inl hb.symm)
  | obj fs =>
      by_cases hfav : hasKeyB fs "final_answer_verified" = true
      · have htr : Json.truthy (.obj fs) = true := by
          obtain ⟨x, hx, _⟩ := List.any_eq_true.mp hfav
          cases fs with
          | nil => exact absurd hx (List.not_mem_nil x)
          | cons a l => rfl
        simp only [VerificationOutputParser.processLine, memKey_obj] at h
        repeat' split at h
        all_goals first
          | exact Except.noConfusion h
          | (injection h with h2; injection h2 with ha hb; exact Or.inl hb.symm)
          | (injection h with h2; injection h2 with ha hb; exact Or.inr ⟨hb.symm, htr⟩)
      · simp only [VerificationOutputParser.processLine, memKey_obj] at h
        repeat' split at h
        all_goals first
          | exact Except.noConfusion h
          | (injection h with h2; injection h2 with ha hb; exact Or.inl hb.symm)

/-- Parser helper: the verdict returned by the scan loop is always a truthy
object (provided the carried one is). -/
theorem parseLines_verdict_truthy (lines : List Line) (S : List StepVerification)
    (V : Option Json) (hV : ∀ jj, V = some jj → jj.truthy = true) :
    ∀ jj, (VerificationOutputParser.parseLines lines S V).2.1 = some jj →
      jj.truthy = true := by
  induction lines generalizing S V with
  | nil => simpa [VerificationOutputParser.parseLines] using hV
  | cons l rest ih =>
      cases l with
      | blank =>
          simp only [VerificationOutputParser.parseLines]
          exact ih S V hV
      | malformed c =>
          simpa [VerificationOutputParser.parseLines] using hV
      | json j =>
          cases hp : VerificationOutputParser.processLine j S V with
          | ok p =>
              obtain ⟨s', v'⟩ := p
              have hv2 : ∀ jj, v' = some jj → jj.truthy = true := by
                intro jj hjj
                rcases processLine_verdict_cases j S V s' v' hp with h1 | ⟨h2, h3⟩
                · exact hV jj (h1 ▸ hjj)
                · rw [h2] at hjj
                  injection hjj with hjj
                  exact hjj ▸ h3
              simp only [VerificationOutputParser.parseLines, hp]
              exact ih s' v' hv2
          | error e =>
              simpa [VerificationOutputParser.parseLines, hp] using hV

/-- C1: for every run in which the generated code executes successfully and
parsing completes without error and yields a final verdict, the status is
`verified` exactly when the verdict's `final_answer_verified` is true and
every parsed step is verified; if some step is unverified or the verdict is
false, the status is `failed_reasoning`. -/
theorem verify_diagnosis (env : VerificationPipeline.PipelineEnv) (code : String)
    (steps : List StepVerification) (fv : Json)
    (hgen : env.gen = .ok code)
    (hsucc : (env.exec code).success = true)
    (hparse : VerificationOutputParser.parse (env.exec code) = (steps, some fv, none)) :
    ((VerificationPipeline.verify env).1.status = .verified ↔
       (VerificationPipeline.favOf fv = true ∧ ∀ s ∈ steps, s.verified = true)) ∧
    ((VerificationPipeline.favOf fv = false ∨ ∃ s ∈ steps, s.verified = false) →
       (VerificationPipeline.verify env).1.status = .failed_reasoning) := by
  have hparse2 : VerificationOutputParser.parseLines (env.exec code).stdoutLines [] none
      = (steps, some fv, none) := by
    have h2 := hparse
    unfold VerificationOutputParser.parse at h2
    rw [if_pos hsucc] at h2
    exact h2
  have htr : fv.truthy = true :=
    parseLines_verdict_truthy _ [] none (fun jj h => Option.noConfusion h) fv
      (by rw [hparse2])
  cases hall : (steps.all (fun s => s.verified) && VerificationPipeline.favOf fv) with
  | true =>
      have hv : VerificationPipeline.verify env =
          (VerificationPipeline.create_final_result code (env.exec code) steps fv
            .verified false, ⟨1, 1, 0⟩) := by
        simp only [VerificationPipeline.verify, hgen, hsucc, Bool.not_true, hparse,
          htr, hall, Bool.not_false, Bool.false_eq_true, if_false, if_true, ite_true,
          ite_false]
      rw [hv]
      rw [Bool.and_eq_true] at hall
      obtain ⟨hsteps, hfav⟩ := hall
      constructor
      · exact iff_of_true rfl ⟨hfav, List.all_eq_true.mp hsteps⟩
      · rintro (hbad | ⟨s, hmem, hbad⟩)
        · exact absurd hfav (by rw [hbad]; exact Bool.false_ne_true)
        · exact absurd (List.all_eq_true.mp hsteps s hmem)
            (by rw [hbad]; exact Bool.false_ne_true)
  | false =>
      have hv : VerificationPipeline.verify env =
          (VerificationPipeline.create_final_result code (env.exec code) steps fv
            .failed_reasoning false, ⟨1, 1, 0⟩) := by
        simp only [VerificationPipeline.verify, hgen, hsucc, Bool.not_true, hparse,
          htr, hall, Bool.not_false, Bool.false_eq_true, if_false, if_true, ite_true,
          ite_false]
      rw [hv]
      constructor
      · refine iff_of_false (by simp [VerificationPipeline.create_final_result]) ?_
        rintro ⟨hfav, hsteps⟩
        have htrue : (steps.all (fun s => s.verified) && VerificationPipeline.favOf fv)
            = true := by
          rw [List.all_eq_true.mpr hsteps, hfav]
          rfl
        exact absurd htrue (by rw [hall]; exact Bool.false_ne_true)
      · intro hbad
        rfl

/-- C1 witness: the theorem applied to a run printing one verified step and a
true final verdict (status `verified`, and the `failed_reasoning` clause is
vacuous). -/
theorem verify_diagnosis_witness :
    ((VerificationPipeline.verify
        (envPrinting [.json (stepObj 1 "ok" true), .json (favObj true)])).1.status
          = .verified ↔
       (VerificationPipeline.favOf (favObj true) = true ∧
        ∀ s ∈ ([⟨1, "ok", true⟩] : List StepVerification), s.verified = true)) ∧
    ((VerificationPipeline.favOf (favObj true) = false ∨
        ∃ s ∈ ([⟨1, "ok", true⟩] : List StepVerification), s.verified = false) →
       (VerificationPipeline.verify
         (envPrinting [.json (stepObj 1 "ok" true), .json (favObj true)])).1.status
         = .failed_reasoning) :=
  verify_diagnosis _ "code" [⟨1, "ok", true⟩] (favObj true) rfl rfl rfl

/-- Pipeline helper: when the repaired code fails execution or violates the
contract (parse error, or missing/falsy verdict), `_handle_codegen_fault`
ends in `failed_pipeline`. -/
theorem handle_codegen_fault_failure (env : VerificationPipeline.PipelineEnv)
    (oc : String) (r : CodeExecutionResult) (ee : Option String) (rc : String)
    (hrg : env.repairGen = .ok rc)
    (hbad : (env.exec rc).success = false ∨
        (VerificationOutputParser.parse (env.exec rc)).2.2.isSome = true ∨
        (((VerificationOutputParser.parse (env.exec rc)).2.1).map Json.truthy).getD false
          = false) :
    (VerificationPipeline.handle_codegen_fault env oc r ee).1.status
      = .failed_pipeline := by
  simp only [VerificationPipeline.handle_codegen_fault, hrg]
  cases hex : (env.exec rc).success with
  | false =>
      simp only [hex, Bool.not_false, if_true, ite_true]
      rfl
  | true =>
      rcases hp : VerificationOutputParser.parse (env.exec rc) with ⟨a, bc⟩
      obtain ⟨b, c⟩ := bc
      rcases hbad with hb | hb | hb
      · rw [hex] at hb; exact absurd hb (by simp)
      · rw [hp] at hb
        simp only [hex, Bool.not_true, Bool.false_eq_true, if_false, ite_false, hp]
        simp only at hb
        simp only [hb, Bool.true_or, if_true, ite_true]
        rfl
      · rw [hp] at hb
        simp only [hex, Bool.not_true, Bool.false_eq_true, if_false, ite_false, hp]
        simp only at hb
        simp only [hb, Bool.not_false, Bool.or_true, if_true, ite_true]
        rfl

/-- Pipeline helper: every control path of `verify` performs at most two code
generations, two executions and one repair attempt. -/
theorem verify_counts_bounded (env : VerificationPipeline.PipelineEnv) :
    (VerificationPipeline.verify env).2.codegen_calls ≤ 2 ∧
    (VerificationPipeline.verify env).2.exec_calls ≤ 2 ∧
    (VerificationPipeline.verify env).2.repair_attempts ≤ 1 := by
  rcases hg : env.gen with e | code
  · simp only [VerificationPipeline.verify, hg]
    norm_num
  · simp only [VerificationPipeline.verify, hg]
    cases hex : (env.exec code).success with
    | false =>
        simp only [hex, Bool.not_false, if_true, ite_true]
        obtain ⟨h1, h2, h3⟩ := handle_codegen_fault_counts env code (env.exec code) none
        exact ⟨h1.le, h2, h3.le⟩
    | true =>
        simp only [hex, Bool.not_true, Bool.false_eq_true, if_false, ite_false]
        rcases hp : VerificationOutputParser.parse (env.exec code) with ⟨a, bc⟩
        obtain ⟨b, c⟩ := bc
        simp only [hp]
        cases c with
        | some pe =>
            obtain ⟨h1, h2, h3⟩ := handle_codegen_fault_counts env code (env.exec code)
              (some ("Output parsing failed: " ++ VerificationPipeline.pyErrStr pe))
            exact ⟨h1.le, h2, h3.le⟩
        | none =>
            cases b with
            | none =>
                obtain ⟨h1, h2, h3⟩ := handle_codegen_fault_counts env code (env.exec code)
                  (some "Missing final_answer_verified JSON object in output.")
                exact ⟨h1.le, h2, h3.le⟩
            | some fvj =>
                cases htr : fvj.truthy with
                | false =>
                    simp only [htr, Bool.not_false, if_true, ite_true]
                    obtain ⟨h1, h2, h3⟩ := handle_codegen_fault_counts env code
                      (env.exec code)
                      (some "Missing final_answer_verified JSON object in output.")
                    exact ⟨h1.le, h2, h3.le⟩
                | true =>
                    simp only [htr, Bool.not_true, Bool.false_eq_true, if_false,
                      ite_false]
                    split <;> norm_num

/-- Pipeline helper: if a repair was attempted and the repaired code fails
execution or contract adherence, `verify` ends in `failed_pipeline`. -/
theorem verify_repaired_failure (env : VerificationPipeline.PipelineEnv) (rc : String)
    (hrg : env.repairGen = .ok rc)
    (hra : (VerificationPipeline.verify env).2.repair_attempts = 1)
    (hbad : (env.exec rc).success = false ∨
        (VerificationOutputParser.parse (env.exec rc)).2.2.isSome = true ∨
        (((VerificationOutputParser.parse (env.exec rc)).2.1).map Json.truthy).getD false
          = false) :
    (VerificationPipeline.verify env).1.status = .failed_pipeline := by
  rcases hg : env.gen with e | code
  · have hv : (VerificationPipeline.verify env).2.repair_attempts = 0 := by
      simp only [VerificationPipeline.verify, hg]
    exact absurd (hv.symm.trans hra) (by norm_num)
  · cases hex : (env.exec code).success with
    | false =>
        have hv : VerificationPipeline.verify env =
            VerificationPipeline.handle_codegen_fault env code (env.exec code) none := by
          simp only [VerificationPipeline.verify, hg, hex, Bool.not_false, if_true,
            ite_true]
        rw [hv]
        exact handle_codegen_fault_failure env code (env.exec code) none rc hrg hbad
    | true =>
        rcases hp : VerificationOutputParser.parse (env.exec code) with ⟨a, bc⟩
        obtain ⟨b, c⟩ := bc
        cases c with
        | some pe =>
            have hv : VerificationPipeline.verify env =
                VerificationPipeline.handle_codegen_fault env code (env.exec code)
                  (some ("Output parsing failed: " ++ VerificationPipeline.pyErrStr pe)) := by
              simp only [VerificationPipeline.verify, hg, hex, Bool.not_true,
                Bool.false_eq_true, if_false, ite_false, hp]
            rw [hv]
            exact handle_codegen_fault_failure env code (env.exec code) _ rc hrg hbad
        | none =>
            cases b with
            | none =>
                have hv : VerificationPipeline.verify env =
                    VerificationPipeline.handle_codegen_fault env code (env.exec code)
                      (some "Missing final_answer_verified JSON object in output.") := by
                  simp only [VerificationPipeline.verify, hg, hex, Bool.not_true,
                    Bool.false_eq_true, if_false, ite_false, hp]
                rw [hv]
                exact handle_codegen_fault_failure env code (env.exec code) _ rc hrg hbad
            | some fvj =>
                cases htr : fvj.truthy with
                | false =>
                    have hv : VerificationPipeline.verify env =
                        VerificationPipeline.handle_codegen_fault env code (env.exec code)
                          (some "Missing final_answer_verified JSON object in output.") := by
                      simp only [VerificationPipeline.verify, hg, hex, Bool.not_true,
                        Bool.false_eq_true, if_false, ite_false, hp, htr,
                        Bool.not_false, if_true, ite_true]
                    rw [hv]
                    exact handle_codegen_fault_failure env code (env.exec code) _ rc hrg
                      hbad
                | true =>
                    have hv : (VerificationPipeline.verify env).2.repair_attempts = 0 := by
                      simp only [VerificationPipeline.verify, hg, hex, Bool.not_true,
                        Bool.false_eq_true, if_false, ite_false, hp, htr]
                      split <;> rfl
                    exact absurd (hv.symm.trans hra) (by norm_num)

/-- C2: every `verify` call performs at most two code generations, at most
two executions and at most one repair attempt; and whenever a repair was
attempted and the repaired code also fails execution or violates the output
contract (parse error or missing final verdict), the run ends with status
`failed_pipeline` — no further repair is possible since the attempt count is
bounded by one. -/
theorem verify_repair_bounded (env : VerificationPipeline.PipelineEnv) :
    ((VerificationPipeline.verify env).2.codegen_calls ≤ 2 ∧
     (VerificationPipeline.verify env).2.exec_calls ≤ 2 ∧
     (VerificationPipeline.verify env).2.repair_attempts ≤ 1) ∧
    (∀ rc, env.repairGen = .ok rc →
       (VerificationPipeline.verify env).2.repair_attempts = 1 →
       ((env.exec rc).success = false ∨
        (VerificationOutputParser.parse (env.exec rc)).2.2.isSome = true ∨
        (((VerificationOutputParser.parse (env.exec rc)).2.1).map Json.truthy).getD false
          = false) →
       (VerificationPipeline.verify env).1.status = .failed_pipeline) :=
  ⟨verify_counts_bounded env,
   fun rc hrg hra hbad => verify_repaired_failure env rc hrg hra hbad⟩

/-- C2 witness: the theorem applied to a run where both the generated and the
repaired code fail to execute. -/
theorem verify_repair_bounded_witness :
    ((VerificationPipeline.verify envDoubleFail).2.codegen_calls ≤ 2 ∧
     (VerificationPipeline.verify envDoubleFail).2.exec_calls ≤ 2 ∧
     (VerificationPipeline.verify envDoubleFail).2.repair_attempts ≤ 1) ∧
    (VerificationPipeline.verify envDoubleFail).1.status = .failed_pipeline :=
  ⟨(verify_repair_bounded envDoubleFail).1,
   (verify_repair_bounded envDoubleFail).2 "code2" rfl rfl (Or.inl rfl)⟩
